import Mathlib

/-!
Verification of the document-ingestion pipeline and remote-inference client of the
ai-resume-analyzer repository.

The JavaScript sources are shallowly embedded:
* `src/utils/fileHandler.js` — file validation, per-format text extraction,
  scanned-PDF detection, OCR fallback, and batch processing;
* the application component's `callGeminiAPI` — the retrying remote-inference client.

External backends (PDF.js, mammoth, Tesseract, FileReader, fetch) are modelled as
oracles collected in an `Env` record: each oracle gives, for a concrete file, the
outcome (value or thrown-error message) the backend produces for it.  JavaScript
exceptions are modelled with `Except String`.  The module-level memoized PDF.js
loader (`pdfjsLibPromise`) is modelled as explicit state threaded through every
operation that loads PDF.js.
-/

namespace ResumeAnalyzer

/-- JavaScript `String.prototype.trim`: remove leading and trailing whitespace.
Embedded at the character-list level so its algebraic laws are provable. -/
def jsTrim (s : String) : String :=
  ⟨(s.data.dropWhile Char.isWhitespace).rdropWhile Char.isWhitespace⟩

/-- A `File` object as the pipeline observes it: display name, byte size and
declared MIME type. -/
structure JSFile where
  name : String
  size : Nat
  type : String
deriving DecidableEq

/-- A parsed PDF document as seen through PDF.js `getDocument`: each page's text
layer is the list of its text items' strings (`textContent.items[..].str`). -/
structure PDFDoc where
  pages : List (List String)
deriving DecidableEq

/-- The PDF.js library handle resolved by the CDN script loader. -/
inductive PdfJsLib where
  | mk
deriving DecidableEq

/-- Oracles describing what every external backend does on the concrete inputs of
one run.  `pdfjsInit` is the settlement of the single promise created by
`loadPdfJs`; `getDocument` is PDF.js parsing; `readAsText` is the `FileReader`
result (`none` = `onerror` fired); `mammothRaw` is `mammoth.extractRawText`;
`tesseractImage` is `Tesseract.recognize` on a whole image file;
`tesseractPage` is rasterization plus `Tesseract.recognize` for one PDF page;
`arrayBuffer` is the settlement of the `await file.arrayBuffer()` read that
`extractTextFromFile` performs before entering its `try` block, so its
rejection is an uncaught throw. -/
structure Env where
  pdfjsInit : Except String PdfJsLib
  getDocument : PdfJsLib → JSFile → Except String PDFDoc
  arrayBuffer : JSFile → Except String Unit
  readAsText : JSFile → Option String
  mammothRaw : JSFile → Except String String
  tesseractImage : JSFile → Except String String
  tesseractPage : JSFile → Nat → Except String String

instance {ε α : Type} [DecidableEq ε] [DecidableEq α] : DecidableEq (Except ε α) :=
  fun a b =>
  match a, b with
  | .error e, .error e₂ =>
    if h : e = e₂ then isTrue (congrArg Except.error h)
    else isFalse fun hc => h (Except.error.inj hc)
  | .error _, .ok _ => isFalse fun hc => Except.noConfusion hc
  | .ok _, .error _ => isFalse fun hc => Except.noConfusion hc
  | .ok x, .ok y =>
    if h : x = y then isTrue (congrArg Except.ok h)
    else isFalse fun hc => h (Except.ok.inj hc)

/-- The module-level mutable `let pdfjsLibPromise = null` cell of
`fileHandler.js`: `none` is `null`, `some p` is a stored (settled) promise. -/
structure PdfJsState where
  pdfjsLibPromise : Option (Except String PdfJsLib)
deriving DecidableEq

/-- `loadPdfJs`: create and cache the loader promise on first call, reuse the
cached promise on every later call.  The cell is never reset. -/
def loadPdfJs (env : Env) (st : PdfJsState) : Except String PdfJsLib × PdfJsState :=
  match st.pdfjsLibPromise with
  | none => (env.pdfjsInit, { pdfjsLibPromise := some env.pdfjsInit })
  | some p => (p, st)

/-- `await loadPdfJs()` followed by `await pdfjsLib.getDocument(...).promise`,
the shared opening step of `isScannedPDF`, `extractTextFromPDF` and
`processScannedPDF`. -/
def getDocumentViaLoader (env : Env) (f : JSFile) (st : PdfJsState) :
    Except String PDFDoc × PdfJsState :=
  match loadPdfJs env st with
  | (.error e, st') => (.error e, st')
  | (.ok lib, st') => (env.getDocument lib f, st')

/-- `textContent.items.map(item => item.str).join(' ')` for one page. -/
def pageText (items : List String) : String :=
  String.intercalate " " items

/-- Maximum upload size: `10 * 1024 * 1024` bytes. -/
def MAX_FILE_SIZE : Nat := 10 * 1024 * 1024

/-- Maximum number of files per batch. -/
def MAX_FILES : Nat := 5

/-- Metadata stored in the `SUPPORTED_FILE_TYPES` map for one MIME type. -/
structure FileTypeInfo where
  extension : String
  displayName : String
deriving DecidableEq

/-- The `SUPPORTED_FILE_TYPES` object of `fileHandler.js`, as an association
list in source order.  Note it contains seven keys, including the nonstandard
`image/jpg`. -/
def SUPPORTED_FILE_TYPES : List (String × FileTypeInfo) :=
  [("application/pdf", ⟨".pdf", "PDF"⟩),
   ("text/plain", ⟨".txt", "Text"⟩),
   ("application/vnd.openxmlformats-officedocument.wordprocessingml.document",
     ⟨".docx", "Word Document"⟩),
   ("application/msword", ⟨".doc", "Word Document"⟩),
   ("image/png", ⟨".png", "PNG Image"⟩),
   ("image/jpeg", ⟨".jpg", "JPEG Image"⟩),
   ("image/jpg", ⟨".jpg", "JPEG Image"⟩)]

/-- The property access `SUPPORTED_FILE_TYPES[file.type]`. -/
def lookupSupportedType (t : String) : Option FileTypeInfo :=
  (SUPPORTED_FILE_TYPES.find? fun p => p.1 == t).map fun p => p.2

/-- The MIME types accepted by the validator (the keys of
`SUPPORTED_FILE_TYPES`). -/
def allowedMimeTypes : List String :=
  SUPPORTED_FILE_TYPES.map fun p => p.1

/-- Rendering of the JavaScript `(file.size / 1024 / 1024).toFixed(2)`
interpolation; the floating-point formatting is abstracted as the number of
hundredths of a mebibyte. -/
def toFixed2MB (size : Nat) : String :=
  toString (size * 100 / (1024 * 1024))

/-- Result object of `validateFile`. -/
structure ValidationResult where
  success : Bool
  message : String
deriving DecidableEq

/-- `validateFile`: size check, then membership in `SUPPORTED_FILE_TYPES`. -/
def validateFile (f : JSFile) : ValidationResult :=
  if f.size > MAX_FILE_SIZE then
    { success := false
      message := "File size exceeds 10MB limit. Current size: " ++ toFixed2MB f.size ++ "MB" }
  else
    match lookupSupportedType f.type with
    | none =>
      { success := false
        message := "Unsupported file type: " ++ f.type ++
          ". Supported types: PDF, TXT, DOCX, DOC, PNG, JPG" }
    | some _ => { success := true, message := "File is valid" }

/-- Result object of `validateMultipleFiles`. -/
structure MultiValidation where
  success : Bool
  validFiles : List JSFile
  errors : List String
deriving DecidableEq

/-- `validateMultipleFiles`: reject the whole batch when the count exceeds
`MAX_FILES`; otherwise partition the files in order into valid ones and
per-file error messages.  `success` is `errors.length === 0`. -/
def validateMultipleFiles (files : List JSFile) : MultiValidation :=
  if files.length > MAX_FILES then
    { success := false
      validFiles := []
      errors := ["Maximum " ++ toString MAX_FILES ++ " files allowed. You selected " ++
        toString files.length ++ " files."] }
  else
    let validFiles := files.filter fun f => (validateFile f).success
    let errors := files.filterMap fun f =>
      if (validateFile f).success then none
      else some (f.name ++ ": " ++ (validateFile f).message)
    { success := errors.isEmpty, validFiles := validFiles, errors := errors }

/-- `isScannedPDF`: sum the text-layer lengths of the first
`Math.min(numPages, 3)` pages; scanned iff the total is below 50.  Any error is
caught and reported as `false`. -/
def isScannedPDF (env : Env) (f : JSFile) (st : PdfJsState) : Bool × PdfJsState :=
  match getDocumentViaLoader env f st with
  | (.error _, st') => (false, st')
  | (.ok pdf, st') =>
    let totalTextLength := (((pdf.pages.take 3).map fun items => (pageText items).length)).sum
    (decide (totalTextLength < 50), st')

/-- `extractTextFromPDF`: join every page's text with `'\n'` separators,
trim, or wrap a thrown error. -/
def extractTextFromPDF (env : Env) (f : JSFile) (st : PdfJsState) :
    Except String String × PdfJsState :=
  match getDocumentViaLoader env f st with
  | (.error e, st') => (.error ("Failed to extract text from PDF: " ++ e), st')
  | (.ok pdf, st') =>
    (.ok (jsTrim (String.join (pdf.pages.map fun items => pageText items ++ "\n"))), st')

/-- `extractTextFromDocx`: mammoth conversion, trimmed, errors wrapped. -/
def extractTextFromDocx (env : Env) (f : JSFile) : Except String String :=
  match env.mammothRaw f with
  | .error e => .error ("Failed to extract text from Word document: " ++ e)
  | .ok v => .ok (jsTrim v)

/-- `extractTextFromImage`: Tesseract OCR, trimmed, errors wrapped. -/
def extractTextFromImage (env : Env) (f : JSFile) : Except String String :=
  match env.tesseractImage f with
  | .error e => .error ("Failed to extract text from image: " ++ e)
  | .ok t => .ok (jsTrim t)

/-- The page loop of `processScannedPDF` over page indices: rasterize and OCR
each page (errors wrapped as in `extractTextFromImage`), appending
`pageText + '\n\n'` to the accumulated text. -/
def ocrPages (env : Env) (f : JSFile) : List Nat → Except String String
  | [] => .ok ""
  | i :: rest =>
    match env.tesseractPage f i with
    | .error e => .error ("Failed to extract text from image: " ++ e)
    | .ok t =>
      match ocrPages env f rest with
      | .error e => .error e
      | .ok s => .ok (jsTrim t ++ "\n\n" ++ s)

/-- `processScannedPDF`: OCR every page of the document in order, trim the
concatenation; any thrown error is wrapped. -/
def processScannedPDF (env : Env) (f : JSFile) (st : PdfJsState) :
    Except String String × PdfJsState :=
  match getDocumentViaLoader env f st with
  | (.error e, st') => (.error ("Failed to process scanned PDF: " ++ e), st')
  | (.ok pdf, st') =>
    match ocrPages env f (List.range' 1 pdf.pages.length) with
    | .error e => (.error ("Failed to process scanned PDF: " ++ e), st')
    | .ok full => (.ok (jsTrim full), st')

/-- The discriminated result object produced by `extractTextFromFile`. -/
inductive ExtractionResult where
  | success (text : String) (method : String) (fileName : String)
      (fileSize : Nat) (fileType : String)
  | failure (error : String) (fileName : String) (fileSize : Nat) (fileType : String)
deriving DecidableEq

/-- The `fileName` field, present in both result shapes. -/
def ExtractionResult.fileName : ExtractionResult → String
  | .success _ _ n _ _ => n
  | .failure _ n _ _ => n

/-- The `fileSize` field, present in both result shapes. -/
def ExtractionResult.fileSize : ExtractionResult → Nat
  | .success _ _ _ s _ => s
  | .failure _ _ s _ => s

/-- The `fileType` field, present in both result shapes. -/
def ExtractionResult.fileTypeOf : ExtractionResult → String
  | .success _ _ _ _ t => t
  | .failure _ _ _ t => t

/-- The `try`-block body of `extractTextFromFile`: the `switch` on
`file.type`, producing extracted text and processing-method tag, or the
thrown error. -/
def innerExtract (env : Env) (f : JSFile) (st : PdfJsState) :
    Except String (String × String) × PdfJsState :=
  if f.type = "text/plain" then
    (match env.readAsText f with
     | none => .error "Failed to read text file"
     | some s => .ok (s, "Direct text reading"), st)
  else if f.type = "application/pdf" then
    match extractTextFromPDF env f st with
    | (.error e, st') => (.error e, st')
    | (.ok t, st') =>
      if t.length < 50 then
        match processScannedPDF env f st' with
        | (.error e, st'') => (.error e, st'')
        | (.ok u, st'') => (.ok (u, "OCR (scanned PDF)"), st'')
      else (.ok (t, "PDF text extraction"), st')
  else if f.type = "application/vnd.openxmlformats-officedocument.wordprocessingml.document"
      ∨ f.type = "application/msword" then
    (match extractTextFromDocx env f with
     | .error e => .error e
     | .ok t => .ok (t, "Word document extraction"), st)
  else if f.type = "image/png" ∨ f.type = "image/jpeg" ∨ f.type = "image/jpg" then
    (match extractTextFromImage env f with
     | .error e => .error e
     | .ok t => .ok (t, "OCR (image)"), st)
  else
    (.error ("Unsupported file type: " ++ f.type), st)

/-- Shape the `try` outcome into the returned result object: a caught error
becomes the failure shape, empty extracted text becomes the
"No text content found" failure, otherwise the success shape. -/
def finishResult (f : JSFile) : Except String (String × String) → ExtractionResult
  | .error e => .failure e f.name f.size f.type
  | .ok (t, m) =>
    if t = "" ∨ (jsTrim t).length = 0 then
      .failure "No text content found in the file" f.name f.size f.type
    else
      .success t m f.name f.size f.type

/-- `extractTextFromFile`: a validation failure throws, and then the
`await file.arrayBuffer()` read may throw — both sit before the `try` block;
only past them is the switch outcome shaped into an `ExtractionResult`. -/
def extractTextFromFile (env : Env) (f : JSFile) (st : PdfJsState) :
    Except String ExtractionResult × PdfJsState :=
  if (validateFile f).success then
    match env.arrayBuffer f with
    | .error e => (.error e, st)
    | .ok _ =>
      let r := innerExtract env f st
      (.ok (finishResult f r.1), r.2)
  else
    (.error (validateFile f).message, st)

/-- The per-file loop of `processMultipleFiles`, collecting results in order;
a thrown exception propagates. -/
def processFilesLoop (env : Env) :
    List JSFile → PdfJsState → Except String (List ExtractionResult) × PdfJsState
  | [], st => (.ok [], st)
  | f :: rest, st =>
    match extractTextFromFile env f st with
    | (.error e, st') => (.error e, st')
    | (.ok r, st') =>
      match processFilesLoop env rest st' with
      | (.error e, st'') => (.error e, st'')
      | (.ok rs, st'') => (.ok (r :: rs), st'')

/-- `processMultipleFiles`: throw when `validateMultipleFiles` reports
failure, otherwise process the valid files sequentially. -/
def processMultipleFiles (env : Env) (files : List JSFile) (st : PdfJsState) :
    Except String (List ExtractionResult) × PdfJsState :=
  let validation := validateMultipleFiles files
  if validation.success then
    processFilesLoop env validation.validFiles st
  else
    (.error ("File validation failed: " ++ String.intercalate ", " validation.errors), st)

/-- The parsed JSON value returned by a successful remote-inference call,
kept abstract. -/
structure ParsedJson where
  raw : String
deriving DecidableEq

/-- Outcome of one attempt of the `callGeminiAPI` loop body, as determined by
the remote service:
`failBeforeParse` covers a rejected `fetch`, a failed `response.json()` and a
non-ok HTTP status (whose thrown message is already formed);
`missingTextField` is a response whose `candidates[0].content.parts[0].text`
is absent; `parseFailure` is a `JSON.parse(text)` exception; `success` is a
fully parsed value. -/
inductive AttemptOutcome where
  | failBeforeParse (msg : String)
  | missingTextField
  | parseFailure (msg : String)
  | success (value : ParsedJson)
deriving DecidableEq

/-- The value or thrown message one loop-body attempt produces. -/
def runAttempt : AttemptOutcome → Except String ParsedJson
  | .failBeforeParse m => .error m
  | .missingTextField => .error "Invalid response structure from API."
  | .parseFailure m => .error m
  | .success v => .ok v

/-- Environment of the remote-inference client: the configured API key (if
any) and the outcome of each attempt, indexed from 0. -/
structure GeminiEnv where
  apiKey : Option String
  attempt : Nat → AttemptOutcome

/-- The `while (attempt < maxRetries)` loop of `callGeminiAPI`.  `fuel` is the
number of remaining iterations (`maxRetries - attempt`); `delays` records each
`setTimeout` wait performed, in order.  A loop that exits without returning
corresponds to JavaScript returning `undefined`, modelled as an error. -/
def callGeminiLoop (env : GeminiEnv) (maxRetries : Nat) :
    Nat → Nat → Nat → List Nat → Except String ParsedJson × List Nat
  | 0, _, _, delays => (.error "undefined", delays)
  | fuel + 1, attempt, delay, delays =>
    match runAttempt (env.attempt attempt) with
    | .ok v => (.ok v, delays)
    | .error e =>
      if maxRetries ≤ attempt + 1 then (.error e, delays)
      else callGeminiLoop env maxRetries fuel (attempt + 1) (delay * 2) (delays ++ [delay])

/-- `callGeminiAPI`: missing key throws before any attempt; otherwise run the
retry loop starting at attempt 0 with a 1000 ms delay. -/
def callGeminiAPI (env : GeminiEnv) (maxRetries : Nat) :
    Except String ParsedJson × List Nat :=
  match env.apiKey with
  | none =>
    (.error "Gemini API key not configured. Please add VITE_GEMINI_API_KEY to your .env file.",
      [])
  | some _ => callGeminiLoop env maxRetries maxRetries 0 1000 []

/-! ### Concrete instances used by counterexamples and witnesses -/

/-- Environment whose text reader yields a string with surrounding whitespace. -/
def envTxt : Env where
  pdfjsInit := .ok .mk
  arrayBuffer := fun _ => .ok ()
  getDocument := fun _ _ => .ok ⟨[]⟩
  readAsText := fun _ => some " hi "
  mammothRaw := fun _ => .ok " doc "
  tesseractImage := fun _ => .error "ocr failed"
  tesseractPage := fun _ _ => .error "ocr failed"

/-- Environment whose PDF backend yields one page with a 61-character text layer. -/
def envPdfLong : Env where
  pdfjsInit := .ok .mk
  arrayBuffer := fun _ => .ok ()
  getDocument := fun _ _ =>
    .ok ⟨[["0123456789012345678901234567890123456789012345678901234567890"]]⟩
  readAsText := fun _ => none
  mammothRaw := fun _ => .error "mammoth failed"
  tesseractImage := fun _ => .error "ocr failed"
  tesseractPage := fun _ _ => .error "ocr failed"

/-- Environment whose PDF backend yields four pages, the first three with a
short text layer and the fourth with a long one. -/
def envScan : Env where
  pdfjsInit := .ok .mk
  arrayBuffer := fun _ => .ok ()
  getDocument := fun _ _ =>
    .ok ⟨[["short"], ["text"], ["x"],
      ["page four is long enough that counting it would change the scanned verdict"]]⟩
  readAsText := fun _ => none
  mammothRaw := fun _ => .error "mammoth failed"
  tesseractImage := fun _ => .error "ocr failed"
  tesseractPage := fun _ _ => .error "ocr failed"

/-- Environment whose PDF.js CDN load fails. -/
def envNoPdf : Env where
  pdfjsInit := .error "Failed to load PDF.js library from CDN."
  arrayBuffer := fun _ => .ok ()
  getDocument := fun _ _ => .ok ⟨[]⟩
  readAsText := fun _ => none
  mammothRaw := fun _ => .error "mammoth failed"
  tesseractImage := fun _ => .error "ocr failed"
  tesseractPage := fun _ _ => .error "ocr failed"

/-- Environment whose pre-`try` buffer read rejects for every file. -/
def envBufFail : Env where
  pdfjsInit := .ok .mk
  arrayBuffer := fun _ => .error "NotReadableError"
  getDocument := fun _ _ => .ok ⟨[]⟩
  readAsText := fun _ => some "hello"
  mammothRaw := fun _ => .ok " doc "
  tesseractImage := fun _ => .error "ocr failed"
  tesseractPage := fun _ _ => .error "ocr failed"

/-- A plain-text file. -/
def txtFile : JSFile := ⟨"a.txt", 4, "text/plain"⟩

/-- A file of an unsupported MIME type. -/
def zipFile : JSFile := ⟨"archive.zip", 100, "application/zip"⟩

/-- A PDF file. -/
def pdfFile : JSFile := ⟨"r.pdf", 500, "application/pdf"⟩

/-- Remote-inference environment: structural failure on the first attempt,
success afterwards. -/
def envGStructuralOnce : GeminiEnv where
  apiKey := some "k"
  attempt := fun i => if i = 0 then .missingTextField else .success ⟨"parsed"⟩

/-- Remote-inference environment: every attempt has the structural failure. -/
def envGAllMissing : GeminiEnv where
  apiKey := some "k"
  attempt := fun _ => .missingTextField

/-- Remote-inference environment: two transient failures, then success. -/
def envGRetryTwice : GeminiEnv where
  apiKey := some "k"
  attempt := fun i =>
    if i < 2 then .failBeforeParse "API Error: 500 Internal Server Error"
    else .success ⟨"parsed"⟩

/-! ### Helper lemmas -/

/-- JavaScript trimming is idempotent. -/
theorem jsTrim_idem (s : String) : jsTrim (jsTrim s) = jsTrim s := by
  unfold jsTrim
  show (⟨((((s.data.dropWhile Char.isWhitespace).rdropWhile Char.isWhitespace).dropWhile
      Char.isWhitespace).rdropWhile Char.isWhitespace)⟩ : String) = _
  have hpre : ((s.data.dropWhile Char.isWhitespace).rdropWhile Char.isWhitespace)
      <+: (s.data.dropWhile Char.isWhitespace) := List.rdropWhile_prefix _ _
  obtain ⟨t, ht⟩ := hpre
  have hdrop : ((s.data.dropWhile Char.isWhitespace).rdropWhile Char.isWhitespace).dropWhile
      Char.isWhitespace = (s.data.dropWhile Char.isWhitespace).rdropWhile Char.isWhitespace := by
    cases hm : (s.data.dropWhile Char.isWhitespace).rdropWhile Char.isWhitespace with
    | nil => simp
    | cons a m' =>
      have hxa : s.data.dropWhile Char.isWhitespace = a :: (m' ++ t) := by
        rw [← ht, hm]; simp
      have h2 := List.head_dropWhile_not Char.isWhitespace s.data
        (by rw [hxa]; simp)
      simp only [hxa, List.head_cons] at h2
      simp [List.dropWhile_cons, h2]
  rw [hdrop, List.rdropWhile_idempotent]

/-- A string of length at least 1 is not the empty string. -/
theorem ne_empty_of_length_pos (t : String) (h : t.length ≠ 0) : t ≠ "" := by
  intro he
  rw [he] at h
  exact h rfl

/-- A nonempty string has nonzero length. -/
theorem length_ne_zero_of_ne_empty (t : String) (h : t ≠ "") : t.length ≠ 0 := by
  intro h0
  apply h
  cases t with
  | mk data =>
    cases data with
    | nil => rfl
    | cons c cs =>
      have : String.length ⟨c :: cs⟩ = cs.length + 1 := rfl
      rw [this] at h0
      exact absurd h0 (Nat.succ_ne_zero _)

/-- The type lookup succeeds exactly for the keys of `SUPPORTED_FILE_TYPES`. -/
theorem lookupSupportedType_isSome_iff (t : String) :
    (lookupSupportedType t).isSome = true ↔ t ∈ allowedMimeTypes := by
  unfold lookupSupportedType allowedMimeTypes
  simp only [Option.isSome_map']
  rw [List.find?_isSome]
  constructor
  · rintro ⟨x, hx, h⟩
    simp only [beq_iff_eq] at h
    exact List.mem_map.mpr ⟨x, hx, h⟩
  · intro h
    obtain ⟨x, hx, h2⟩ := List.mem_map.mp h
    exact ⟨x, hx, by simp [h2]⟩

/-- `validateFile` accepts exactly the files within the size bound whose
declared type is a key of `SUPPORTED_FILE_TYPES`. -/
theorem validateFile_success_iff (f : JSFile) :
    (validateFile f).success = true ↔
      f.size ≤ MAX_FILE_SIZE ∧ f.type ∈ allowedMimeTypes := by
  unfold validateFile
  by_cases hs : f.size > MAX_FILE_SIZE
  · simp [hs, Nat.not_le.mpr hs]
  · have hle : f.size ≤ MAX_FILE_SIZE := Nat.not_lt.mp hs
    rw [← lookupSupportedType_isSome_iff]
    cases hl : lookupSupportedType f.type <;> simp [hs, hl, hle]

/-- Batch validation succeeds exactly when the count is within the bound and
every file passes `validateFile`. -/
theorem validateMultipleFiles_success_iff (files : List JSFile) :
    (validateMultipleFiles files).success = true ↔
      files.length ≤ MAX_FILES ∧ ∀ f ∈ files, (validateFile f).success = true := by
  unfold validateMultipleFiles
  by_cases h : files.length > MAX_FILES
  · simp [h, Nat.not_le.mpr h]
  · have hle : files.length ≤ MAX_FILES := Nat.not_lt.mp h
    simp only [h, if_false, hle, true_and]
    rw [List.isEmpty_iff, List.filterMap_eq_nil_iff]
    constructor
    · intro hall f hf
      have hh := hall f hf
      by_cases hv : (validateFile f).success = true
      · exact hv
      · simp [hv] at hh
    · intro hall f hf
      simp [hall f hf]

/-- When every file is valid and the count is within the bound, the batch
validator accepts all files in order. -/
theorem validateMultipleFiles_validFiles_all (files : List JSFile)
    (hlen : files.length ≤ MAX_FILES)
    (hall : ∀ f ∈ files, (validateFile f).success = true) :
    (validateMultipleFiles files).validFiles = files := by
  unfold validateMultipleFiles
  simp only [Nat.not_lt.mpr hlen, if_false]
  exact List.filter_eq_self.mpr hall

/-- A valid file whose buffer read succeeds takes the `try` block path of
`extractTextFromFile`. -/
theorem extractTextFromFile_of_valid (env : Env) (f : JSFile) (st : PdfJsState)
    (h : (validateFile f).success = true) (hb : env.arrayBuffer f = .ok ()) :
    extractTextFromFile env f st =
      (.ok (finishResult f (innerExtract env f st).1), (innerExtract env f st).2) := by
  unfold extractTextFromFile
  simp [h, hb]

/-- A rejected `file.arrayBuffer()` read throws past `extractTextFromFile`
even for a file that passes validation — the read sits before the `try`
block. -/
theorem extractTextFromFile_of_buffail (env : Env) (f : JSFile) (st : PdfJsState)
    (e : String) (h : (validateFile f).success = true)
    (hb : env.arrayBuffer f = .error e) :
    extractTextFromFile env f st = (.error e, st) := by
  unfold extractTextFromFile
  simp [h, hb]

/-- An invalid file makes `extractTextFromFile` throw the validation message. -/
theorem extractTextFromFile_of_invalid (env : Env) (f : JSFile) (st : PdfJsState)
    (h : (validateFile f).success = false) :
    extractTextFromFile env f st = (.error (validateFile f).message, st) := by
  unfold extractTextFromFile
  simp [h]

/-- The result object always carries the processed file's name. -/
theorem finishResult_fileName (f : JSFile) (r : Except String (String × String)) :
    (finishResult f r).fileName = f.name := by
  unfold finishResult
  cases r with
  | error e => rfl
  | ok tm =>
    cases tm with
    | mk t m =>
      by_cases h : t = "" ∨ (jsTrim t).length = 0 <;>
        simp [h, ExtractionResult.fileName]

/-- The result object always carries the processed file's size. -/
theorem finishResult_fileSize (f : JSFile) (r : Except String (String × String)) :
    (finishResult f r).fileSize = f.size := by
  unfold finishResult
  cases r with
  | error e => rfl
  | ok tm =>
    cases tm with
    | mk t m =>
      by_cases h : t = "" ∨ (jsTrim t).length = 0 <;>
        simp [h, ExtractionResult.fileSize]

/-- The result object always carries the processed file's type. -/
theorem finishResult_fileTypeOf (f : JSFile) (r : Except String (String × String)) :
    (finishResult f r).fileTypeOf = f.type := by
  unfold finishResult
  cases r with
  | error e => rfl
  | ok tm =>
    cases tm with
    | mk t m =>
      by_cases h : t = "" ∨ (jsTrim t).length = 0 <;>
        simp [h, ExtractionResult.fileTypeOf]

/-- With a cached loader promise, the shared document-opening step does not
change the cache. -/
theorem getDocumentViaLoader_cached (env : Env) (f : JSFile) (st : PdfJsState)
    (p : Except String PdfJsLib) (h : st.pdfjsLibPromise = some p) :
    (getDocumentViaLoader env f st).2 = st := by
  unfold getDocumentViaLoader loadPdfJs
  rw [h]
  cases p <;> rfl

/-- With a cached rejected loader promise, the shared document-opening step
yields that rejection unchanged. -/
theorem getDocumentViaLoader_cached_error (env : Env) (f : JSFile) (st : PdfJsState)
    (e : String) (h : st.pdfjsLibPromise = some (.error e)) :
    getDocumentViaLoader env f st = (.error e, st) := by
  unfold getDocumentViaLoader loadPdfJs
  rw [h]

/-! ### Claim C8 — the validator's type allow-list -/

/-- C8 counterexample: `validateFile` accepts the declared type `image/jpg`,
which is not one of the six types the claim lists; so acceptance is not
equivalent to membership in that six-element list. -/
theorem validateFile_accepts_image_jpg_cex :
    (validateFile ⟨"photo.jpg", 100, "image/jpg"⟩).success = true ∧
      "image/jpg" ∉ (["application/pdf", "text/plain",
        "application/vnd.openxmlformats-officedocument.wordprocessingml.document",
        "application/msword", "image/png", "image/jpeg"] : List String) := by
  exact ⟨rfl, by decide⟩

/-- C8 (amended): for a file within the size limit, `validateFile` accepts
exactly the seven keys of `SUPPORTED_FILE_TYPES` — the six types of the claim
plus the nonstandard `image/jpg` — and rejects any other declared type with a
message naming that type. -/
theorem validateFile_accepts_iff_allowed (f : JSFile) (hsz : f.size ≤ MAX_FILE_SIZE) :
    ((validateFile f).success = true ↔ f.type ∈ allowedMimeTypes)
    ∧ (f.type ∉ allowedMimeTypes →
        (validateFile f).message = "Unsupported file type: " ++ f.type ++
          ". Supported types: PDF, TXT, DOCX, DOC, PNG, JPG")
    ∧ allowedMimeTypes = ["application/pdf", "text/plain",
        "application/vnd.openxmlformats-officedocument.wordprocessingml.document",
        "application/msword", "image/png", "image/jpeg", "image/jpg"] := by
  refine ⟨?_, ?_, by decide⟩
  · rw [validateFile_success_iff]
    simp [hsz]
  · intro hmem
    have hnone : lookupSupportedType f.type = none := by
      cases hl : lookupSupportedType f.type with
      | none => rfl
      | some v =>
        exact absurd ((lookupSupportedType_isSome_iff f.type).mp (by simp [hl])) hmem
    unfold validateFile
    simp [Nat.not_lt.mpr hsz, hnone]

/-- C8 witness: a PNG within the size limit is accepted. -/
theorem validateFile_accepts_iff_allowed_w :
    (validateFile ⟨"b.png", 10, "image/png"⟩).success = true :=
  (validateFile_accepts_iff_allowed ⟨"b.png", 10, "image/png"⟩ (by decide)).1.mpr (by decide)

/-! ### Claim C9 — the scanned-document detector -/

/-- C9: `isScannedPDF` sums the text-layer lengths of at most the first three
pages and reports scanned exactly when that sum is below 50; any internal
failure (loader or parser) is caught and reported as `false`, with the cache
state from the document-opening step preserved either way. -/
theorem isScannedPDF_spec (env : Env) (f : JSFile) (st : PdfJsState) :
    (∀ pdf st', getDocumentViaLoader env f st = (.ok pdf, st') →
      ((isScannedPDF env f st).1 = true ↔
        (((pdf.pages.take 3).map fun items => (pageText items).length)).sum < 50)
      ∧ (isScannedPDF env f st).2 = st')
    ∧ (∀ e st', getDocumentViaLoader env f st = (.error e, st') →
      isScannedPDF env f st = (false, st')) := by
  constructor
  · intro pdf st' h
    unfold isScannedPDF
    rw [h]
    simp
  · intro e st' h
    unfold isScannedPDF
    rw [h]

/-- C9 witness: on a four-page document whose first three pages hold 10
text-layer characters in total (the long fourth page is not examined), the
detector reports scanned. -/
theorem isScannedPDF_spec_w :
    (isScannedPDF envScan pdfFile ⟨none⟩).1 = true :=
  (((isScannedPDF_spec envScan pdfFile ⟨none⟩).1
    ⟨[["short"], ["text"], ["x"],
      ["page four is long enough that counting it would change the scanned verdict"]]⟩
    ⟨some (.ok .mk)⟩ rfl).1).mpr (by decide)

/-! ### Claim C10 — memoization of the PDF.js loader -/

/-- C10: the loader promise is cached on first use and returned unchanged by
every later call; every operation that loads PDF.js preserves an existing
cache entry; and with a cached rejected promise, PDF text extraction,
the scanned check and scanned-PDF OCR all fail (the check reporting `false`)
without the cache ever being reset or re-attempted. -/
theorem loadPdfJs_memoized_spec (env : Env) :
    (∀ st p, st.pdfjsLibPromise = some p → loadPdfJs env st = (p, st))
    ∧ loadPdfJs env ⟨none⟩ = (env.pdfjsInit, ⟨some env.pdfjsInit⟩)
    ∧ (∀ f st p, st.pdfjsLibPromise = some p →
        (extractTextFromPDF env f st).2 = st ∧ (isScannedPDF env f st).2 = st ∧
        (processScannedPDF env f st).2 = st ∧ (extractTextFromFile env f st).2 = st)
    ∧ (∀ f st e, st.pdfjsLibPromise = some (.error e) →
        (extractTextFromPDF env f st).1 =
          .error ("Failed to extract text from PDF: " ++ e) ∧
        (isScannedPDF env f st).1 = false ∧
        (processScannedPDF env f st).1 =
          .error ("Failed to process scanned PDF: " ++ e)) := by
  have hload : ∀ st p, st.pdfjsLibPromise = some p → loadPdfJs env st = (p, st) := by
    intro st p h
    unfold loadPdfJs
    rw [h]
  have hdoc2 : ∀ f st p, st.pdfjsLibPromise = some p →
      (getDocumentViaLoader env f st).2 = st :=
    fun f st p h => getDocumentViaLoader_cached env f st p h
  have hpdf2 : ∀ f st p, st.pdfjsLibPromise = some p →
      (extractTextFromPDF env f st).2 = st := by
    intro f st p h
    unfold extractTextFromPDF
    cases hg : getDocumentViaLoader env f st with
    | mk r s2 =>
      have : s2 = st := by
        have := hdoc2 f st p h
        rw [hg] at this
        exact this
      cases r <;> simp [this]
  have hscan2 : ∀ f st p, st.pdfjsLibPromise = some p →
      (isScannedPDF env f st).2 = st := by
    intro f st p h
    unfold isScannedPDF
    cases hg : getDocumentViaLoader env f st with
    | mk r s2 =>
      have : s2 = st := by
        have := hdoc2 f st p h
        rw [hg] at this
        exact this
      cases r <;> simp [this]
  have hocr2 : ∀ f st p, st.pdfjsLibPromise = some p →
      (processScannedPDF env f st).2 = st := by
    intro f st p h
    unfold processScannedPDF
    cases hg : getDocumentViaLoader env f st with
    | mk r s2 =>
      have : s2 = st := by
        have := hdoc2 f st p h
        rw [hg] at this
        exact this
      cases r with
      | error e => simp [this]
      | ok pdf =>
        cases ho : ocrPages env f (List.range' 1 pdf.pages.length) <;> simp [ho, this]
  have hinner2 : ∀ f st p, st.pdfjsLibPromise = some p →
      (innerExtract env f st).2 = st := by
    intro f st p h
    unfold innerExtract
    split_ifs with h1 h2 h3 h4
    · cases env.readAsText f <;> rfl
    · cases hE : extractTextFromPDF env f st with
      | mk r1 s1 =>
        have hs1 : s1 = st := by
          have := hpdf2 f st p h
          rw [hE] at this
          exact this
        cases r1 with
        | error e => simp [hs1]
        | ok t =>
          by_cases hlen : t.length < 50
          · simp only [hlen, if_true]
            cases hS : processScannedPDF env f s1 with
            | mk r2 s2 =>
              have hs2 : s2 = st := by
                have h3 := hocr2 f s1 p (by rw [hs1]; exact h)
                rw [hS] at h3
                simpa [hs1] using h3
              cases r2 <;> simp [hs2]
          · simp [hlen, hs1]
    · cases extractTextFromDocx env f <;> rfl
    · cases extractTextFromImage env f <;> rfl
    · rfl
  refine ⟨hload, rfl, ?_, ?_⟩
  · intro f st p h
    refine ⟨hpdf2 f st p h, hscan2 f st p h, hocr2 f st p h, ?_⟩
    unfold extractTextFromFile
    by_cases hv : (validateFile f).success = true
    · cases hb : env.arrayBuffer f with
      | error e => simp [hv, hb]
      | ok u => simp [hv, hb, hinner2 f st p h]
    · simp [hv]
  · intro f st e h
    have hg := getDocumentViaLoader_cached_error env f st e h
    refine ⟨?_, ?_, ?_⟩
    · unfold extractTextFromPDF
      rw [hg]
    · unfold isScannedPDF
      rw [hg]
    · unfold processScannedPDF
      rw [hg]

/-- C10 witness: with the CDN load failure cached, PDF text extraction fails
with the wrapped loader error. -/
theorem loadPdfJs_memoized_spec_w :
    (extractTextFromPDF envNoPdf pdfFile
        ⟨some (.error "Failed to load PDF.js library from CDN.")⟩).1 =
      .error "Failed to extract text from PDF: Failed to load PDF.js library from CDN." :=
  ((loadPdfJs_memoized_spec envNoPdf).2.2.2 pdfFile
    ⟨some (.error "Failed to load PDF.js library from CDN.")⟩
    "Failed to load PDF.js library from CDN." rfl).1

/-! ### Claim C5 — structural response failures at the inference boundary -/

/-- C5 counterexample: a first attempt whose response lacks the nested text
field is not fatal — the client retries after a 1000 ms backoff delay and
returns the second attempt's parsed value, contradicting the claim that a
structural failure is raised immediately with no retry and no delay. -/
theorem structural_error_is_retried_cex :
    envGStructuralOnce.attempt 0 = .missingTextField ∧
      callGeminiAPI envGStructuralOnce 3 = (.ok ⟨"parsed"⟩, [1000]) :=
  ⟨rfl, rfl⟩

/-- C5 (amended): a response lacking the expected nested text field raises
"Invalid response structure from API." inside the attempt and is retried with
backoff like any other failure; only after all three attempts fail this way
does the client raise that error, having waited 1000 ms and then 2000 ms. -/
theorem structural_error_retries_exhaust (env : GeminiEnv) (k : String)
    (hk : env.apiKey = some k)
    (h : ∀ i, i < 3 → env.attempt i = .missingTextField) :
    callGeminiAPI env 3 = (.error "Invalid response structure from API.", [1000, 2000]) := by
  have r0 : runAttempt (env.attempt 0) = .error "Invalid response structure from API." := by
    rw [h 0 (by decide)]; rfl
  have r1 : runAttempt (env.attempt 1) = .error "Invalid response structure from API." := by
    rw [h 1 (by decide)]; rfl
  have r2 : runAttempt (env.attempt 2) = .error "Invalid response structure from API." := by
    rw [h 2 (by decide)]; rfl
  unfold callGeminiAPI
  rw [hk]
  unfold callGeminiLoop
  rw [r0]
  norm_num
  unfold callGeminiLoop
  rw [r1]
  norm_num
  unfold callGeminiLoop
  rw [r2]
  norm_num

/-- C5 witness: with every attempt missing the text field, the client fails
with the structural error after backoffs of 1000 and 2000 ms. -/
theorem structural_error_retries_exhaust_w :
    callGeminiAPI envGAllMissing 3 =
      (.error "Invalid response structure from API.", [1000, 2000]) :=
  structural_error_retries_exhaust envGAllMissing "k" rfl (fun _ _ => rfl)

/-! ### Claim C6 — the retry/backoff contract of the inference client -/

/-- C6: with a configured key, the client returns the first successful parse
(with no prior delay on first-attempt success, a 1000 ms delay before the
second attempt and a further 2000 ms delay before the third); if all three
attempts fail it re-raises the last error after those same delays; and the
outcome depends only on the first three attempts, so no fourth attempt is
ever consulted. -/
theorem callGeminiAPI_retry_spec (env : GeminiEnv) (k : String) (hk : env.apiKey = some k) :
    (∀ v, runAttempt (env.attempt 0) = .ok v → callGeminiAPI env 3 = (.ok v, []))
    ∧ (∀ e₀ v, runAttempt (env.attempt 0) = .error e₀ →
        runAttempt (env.attempt 1) = .ok v → callGeminiAPI env 3 = (.ok v, [1000]))
    ∧ (∀ e₀ e₁ v, runAttempt (env.attempt 0) = .error e₀ →
        runAttempt (env.attempt 1) = .error e₁ → runAttempt (env.attempt 2) = .ok v →
        callGeminiAPI env 3 = (.ok v, [1000, 2000]))
    ∧ (∀ e₀ e₁ e₂, runAttempt (env.attempt 0) = .error e₀ →
        runAttempt (env.attempt 1) = .error e₁ → runAttempt (env.attempt 2) = .error e₂ →
        callGeminiAPI env 3 = (.error e₂, [1000, 2000]))
    ∧ (∀ env₂ : GeminiEnv, env₂.apiKey = env.apiKey →
        (∀ i, i < 3 → env₂.attempt i = env.attempt i) →
        callGeminiAPI env₂ 3 = callGeminiAPI env 3) := by
  refine ⟨?_, ?_, ?_, ?_, ?_⟩
  · intro v h0
    unfold callGeminiAPI
    rw [hk]
    unfold callGeminiLoop
    rw [h0]
  · intro e₀ v h0 h1
    unfold callGeminiAPI
    rw [hk]
    unfold callGeminiLoop
    rw [h0]
    norm_num
    unfold callGeminiLoop
    rw [h1]
  · intro e₀ e₁ v h0 h1 h2
    unfold callGeminiAPI
    rw [hk]
    unfold callGeminiLoop
    rw [h0]
    norm_num
    unfold callGeminiLoop
    rw [h1]
    norm_num
    unfold callGeminiLoop
    rw [h2]
  · intro e₀ e₁ e₂ h0 h1 h2
    unfold callGeminiAPI
    rw [hk]
    unfold callGeminiLoop
    rw [h0]
    norm_num
    unfold callGeminiLoop
    rw [h1]
    norm_num
    unfold callGeminiLoop
    rw [h2]
    norm_num
  · intro env₂ hkk hatt
    have a0 := hatt 0 (by decide)
    have a1 := hatt 1 (by decide)
    have a2 := hatt 2 (by decide)
    unfold callGeminiAPI
    rw [hkk, hk]
    unfold callGeminiLoop
    unfold callGeminiLoop
    unfold callGeminiLoop
    unfold callGeminiLoop
    rw [a0, a1, a2]

/-- C6 witness: two transient failures followed by a successful third attempt
yield the parsed value after backoffs of 1000 and 2000 ms. -/
theorem callGeminiAPI_retry_spec_w :
    callGeminiAPI envGRetryTwice 3 = (.ok ⟨"parsed"⟩, [1000, 2000]) :=
  (callGeminiAPI_retry_spec envGRetryTwice "k" rfl).2.2.1
    "API Error: 500 Internal Server Error" "API Error: 500 Internal Server Error"
    ⟨"parsed"⟩ rfl rfl rfl


/-! ### Further helper lemmas for the extraction pipeline -/

/-- The success shape of the result object, for non-blank trimmed-or-kept text. -/
theorem finishResult_success (f : JSFile) (t m : String)
    (h1 : jsTrim t = t) (h2 : t ≠ "") :
    finishResult f (.ok (t, m)) = .success t m f.name f.size f.type := by
  have hc : ¬ (t = "" ∨ (jsTrim t).length = 0) := by
    push_neg
    exact ⟨h2, by rw [h1]; exact length_ne_zero_of_ne_empty t h2⟩
  show (if t = "" ∨ (jsTrim t).length = 0 then
      ExtractionResult.failure "No text content found in the file" f.name f.size f.type
    else ExtractionResult.success t m f.name f.size f.type) = _
  rw [if_neg hc]

/-- Injectivity of a successful text-and-method outcome. -/
theorem ok_pair_inj {α β ε : Type} {a₁ a₂ : α} {b₁ b₂ : β}
    (h : (Except.ok (a₁, b₁) : Except ε (α × β)) = .ok (a₂, b₂)) :
    a₁ = a₂ ∧ b₁ = b₂ := by
  have h2 := Except.ok.inj h
  exact ⟨congrArg Prod.fst h2, congrArg Prod.snd h2⟩

/-- Direct PDF extraction only returns trimmed text. -/
theorem extractTextFromPDF_ok_trim (env : Env) (f : JSFile) (st st' : PdfJsState)
    (t : String) (h : extractTextFromPDF env f st = (.ok t, st')) : jsTrim t = t := by
  unfold extractTextFromPDF at h
  cases hg : getDocumentViaLoader env f st with
  | mk r s2 =>
    rw [hg] at h
    cases r with
    | error e => simp at h
    | ok pdf =>
      simp only [Prod.mk.injEq] at h
      obtain ⟨h1, h2⟩ := h
      rw [← Except.ok.inj h1, jsTrim_idem]

/-- Scanned-PDF OCR only returns trimmed text. -/
theorem processScannedPDF_ok_trim (env : Env) (f : JSFile) (st st' : PdfJsState)
    (u : String) (h : processScannedPDF env f st = (.ok u, st')) : jsTrim u = u := by
  unfold processScannedPDF at h
  cases hg : getDocumentViaLoader env f st with
  | mk r s2 =>
    rw [hg] at h
    cases r with
    | error e => simp at h
    | ok pdf =>
      simp only at h
      cases ho : ocrPages env f (List.range' 1 pdf.pages.length) with
      | error e => rw [ho] at h; simp at h
      | ok full =>
        rw [ho] at h
        simp only [Prod.mk.injEq] at h
        obtain ⟨h1, h2⟩ := h
        rw [← Except.ok.inj h1, jsTrim_idem]

/-- Word-document extraction only returns trimmed text. -/
theorem extractTextFromDocx_ok_trim (env : Env) (f : JSFile) (v : String)
    (h : extractTextFromDocx env f = .ok v) : jsTrim v = v := by
  unfold extractTextFromDocx at h
  cases hm : env.mammothRaw f with
  | error e => rw [hm] at h; simp at h
  | ok s =>
    rw [hm] at h
    rw [← Except.ok.inj h, jsTrim_idem]

/-- Image OCR only returns trimmed text. -/
theorem extractTextFromImage_ok_trim (env : Env) (f : JSFile) (v : String)
    (h : extractTextFromImage env f = .ok v) : jsTrim v = v := by
  unfold extractTextFromImage at h
  cases hm : env.tesseractImage f with
  | error e => rw [hm] at h; simp at h
  | ok s =>
    rw [hm] at h
    rw [← Except.ok.inj h, jsTrim_idem]

/-- Provenance of a successful switch outcome: the plain-text path returns
the raw reader content, every other path returns trimmed text. -/
theorem innerExtract_ok_shape (env : Env) (f : JSFile) (st : PdfJsState)
    (t m : String) (h : (innerExtract env f st).1 = .ok (t, m)) :
    (f.type = "text/plain" → env.readAsText f = some t ∧ m = "Direct text reading")
    ∧ (f.type ≠ "text/plain" → jsTrim t = t) := by
  unfold innerExtract at h
  split_ifs at h with h1 h2 h3 h4
  · refine ⟨?_, fun hne => absurd h1 hne⟩
    intro _
    cases hre : env.readAsText f with
    | none => rw [hre] at h; simp at h
    | some s =>
      rw [hre] at h
      simp only at h
      have hinj := Except.ok.inj h
      have hts : s = t := congrArg Prod.fst hinj
      have hms : "Direct text reading" = m := congrArg Prod.snd hinj
      subst hts
      exact ⟨rfl, hms.symm⟩
  · refine ⟨fun hpl => absurd hpl h1, fun _ => ?_⟩
    cases hE : extractTextFromPDF env f st with
    | mk r1 s1 =>
      rw [hE] at h
      cases r1 with
      | error e => simp at h
      | ok t1 =>
        simp only at h
        by_cases hlen : t1.length < 50
        · rw [if_pos hlen] at h
          cases hS : processScannedPDF env f s1 with
          | mk r2 s2 =>
            rw [hS] at h
            cases r2 with
            | error e => simp at h
            | ok u =>
              simp only at h
              obtain ⟨htu, hmu⟩ := ok_pair_inj h
              rw [← htu]
              exact processScannedPDF_ok_trim env f s1 s2 u hS
        · rw [if_neg hlen] at h
          simp only at h
          obtain ⟨htu, hmu⟩ := ok_pair_inj h
          rw [← htu]
          exact extractTextFromPDF_ok_trim env f st s1 t1 hE
  · refine ⟨fun hpl => absurd hpl h1, fun _ => ?_⟩
    cases hD : extractTextFromDocx env f with
    | error e => rw [hD] at h; simp at h
    | ok v =>
      rw [hD] at h
      simp only at h
      obtain ⟨htu, hmu⟩ := ok_pair_inj h
      rw [← htu]
      exact extractTextFromDocx_ok_trim env f v hD
  · refine ⟨fun hpl => absurd hpl h1, fun _ => ?_⟩
    cases hD : extractTextFromImage env f with
    | error e => rw [hD] at h; simp at h
    | ok v =>
      rw [hD] at h
      simp only at h
      obtain ⟨htu, hmu⟩ := ok_pair_inj h
      rw [← htu]
      exact extractTextFromImage_ok_trim env f v hD

/-- Processing a list of valid files succeeds file-by-file, preserving count,
order and per-file metadata. -/
theorem processFilesLoop_spec (env : Env) (files : List JSFile) :
    ∀ st : PdfJsState, (∀ f ∈ files, (validateFile f).success = true) →
      (∀ f ∈ files, env.arrayBuffer f = .ok ()) →
      ∃ rs st', processFilesLoop env files st = (.ok rs, st') ∧
        rs.map ExtractionResult.fileName = files.map JSFile.name ∧
        rs.map ExtractionResult.fileSize = files.map JSFile.size ∧
        rs.map ExtractionResult.fileTypeOf = files.map JSFile.type := by
  induction files with
  | nil => exact fun st _ _ => ⟨[], st, rfl, rfl, rfl, rfl⟩
  | cons f rest ih =>
    intro st hall hbuf
    have hf : (validateFile f).success = true := hall f (List.mem_cons_self f rest)
    have hfb : env.arrayBuffer f = .ok () := hbuf f (List.mem_cons_self f rest)
    have hrest : ∀ g ∈ rest, (validateFile g).success = true :=
      fun g hg => hall g (List.mem_cons_of_mem f hg)
    have hbrest : ∀ g ∈ rest, env.arrayBuffer g = .ok () :=
      fun g hg => hbuf g (List.mem_cons_of_mem f hg)
    obtain ⟨rs, st', hloop, hn, hs, ht⟩ := ih ((innerExtract env f st).2) hrest hbrest
    refine ⟨finishResult f (innerExtract env f st).1 :: rs, st', ?_, ?_, ?_, ?_⟩
    · show processFilesLoop env (f :: rest) st = _
      unfold processFilesLoop
      rw [extractTextFromFile_of_valid env f st hf hfb]
      simp only
      rw [hloop]
    · simp [hn, finishResult_fileName]
    · simp [hs, finishResult_fileSize]
    · simp [ht, finishResult_fileTypeOf]

/-- Direct PDF extraction depends only on the PDF.js loader and parser
oracles, not on the OCR backends. -/
theorem extractTextFromPDF_congr (env env₂ : Env) (f : JSFile) (st : PdfJsState)
    (h1 : env₂.pdfjsInit = env.pdfjsInit) (h2 : env₂.getDocument = env.getDocument) :
    extractTextFromPDF env₂ f st = extractTextFromPDF env f st := by
  unfold extractTextFromPDF getDocumentViaLoader loadPdfJs
  rw [h1, h2]

/-- The `switch` of `extractTextFromFile` specialised to a PDF file. -/
theorem innerExtract_pdf (env : Env) (f : JSFile) (st : PdfJsState)
    (hty : f.type = "application/pdf") :
    innerExtract env f st =
      (match extractTextFromPDF env f st with
       | (.error e, st') => (.error e, st')
       | (.ok t, st') =>
         if t.length < 50 then
           match processScannedPDF env f st' with
           | (.error e, st'') => (.error e, st'')
           | (.ok u, st'') => (.ok (u, "OCR (scanned PDF)"), st'')
         else (.ok (t, "PDF text extraction"), st')) := by
  unfold innerExtract
  rw [if_neg (by rw [hty]; decide), if_pos hty]

/-- A PDF whose direct extraction keeps at least 50 characters yields the kept
text with the direct-extraction method tag. -/
theorem extractTextFromFile_pdf_long (env : Env) (f : JSFile) (st st' : PdfJsState)
    (t : String) (hty : f.type = "application/pdf") (hsz : f.size ≤ MAX_FILE_SIZE)
    (hbuf : env.arrayBuffer f = .ok ())
    (hext : extractTextFromPDF env f st = (.ok t, st')) (hlen : 50 ≤ t.length) :
    extractTextFromFile env f st =
      (.ok (.success t "PDF text extraction" f.name f.size f.type), st') := by
  have hv : (validateFile f).success = true :=
    (validateFile_success_iff f).mpr ⟨hsz, by rw [hty]; decide⟩
  have hie := innerExtract_pdf env f st hty
  rw [hext] at hie
  simp only at hie
  rw [if_neg (Nat.not_lt.mpr hlen)] at hie
  rw [extractTextFromFile_of_valid env f st hv hbuf, hie]
  have htr : jsTrim t = t := extractTextFromPDF_ok_trim env f st st' t hext
  have hne : t ≠ "" := by
    intro he
    rw [he] at hlen
    exact absurd hlen (by decide)
  rw [finishResult_success f t "PDF text extraction" htr hne]


/-! ### Claim C1 — when the batch processor raises -/

/-- C1 counterexample: a batch of one file — well within the five-file
maximum — containing a single invalid file makes `processMultipleFiles`
throw, instead of returning per-file results with the invalid file reported
as a rejection. -/
theorem processMultipleFiles_throws_within_max_cex :
    [zipFile].length ≤ MAX_FILES ∧
      (processMultipleFiles envTxt [zipFile] ⟨none⟩).1 =
        .error "File validation failed: archive.zip: Unsupported file type: application/zip. Supported types: PDF, TXT, DOCX, DOC, PNG, JPG" := by
  exact ⟨by decide, rfl⟩

/-- C1 (amended): `processMultipleFiles` raises when batch validation fails,
and batch validation fails not only when the file count exceeds `MAX_FILES`
but also when any single file is invalid; moreover even a fully accepted
batch raises when a file's pre-`try` buffer read rejects, the rejection
propagating uncaught.  Per-file results are returned when every file passes
validation and every buffer read succeeds. -/
theorem processMultipleFiles_raises_iff_validation_fails (env : Env)
    (files : List JSFile) (st : PdfJsState) :
    ((validateMultipleFiles files).success = false →
      (processMultipleFiles env files st).1 = .error
        ("File validation failed: " ++
          String.intercalate ", " (validateMultipleFiles files).errors))
    ∧ ((validateMultipleFiles files).success = true →
      (∀ f ∈ files, env.arrayBuffer f = .ok ()) →
      ∃ rs, (processMultipleFiles env files st).1 = .ok rs)
    ∧ ((validateMultipleFiles files).success = false ↔
      MAX_FILES < files.length ∨ ∃ f ∈ files, (validateFile f).success = false)
    ∧ (∀ f₀ rest e, files = f₀ :: rest →
      (validateMultipleFiles files).success = true → env.arrayBuffer f₀ = .error e →
      (processMultipleFiles env files st).1 = .error e) := by
  refine ⟨?_, ?_, ?_, ?_⟩
  · intro h
    unfold processMultipleFiles
    simp [h]
  · intro h hbuf
    obtain ⟨hlen, hall⟩ := (validateMultipleFiles_success_iff files).mp h
    obtain ⟨rs, st', hloop, _, _, _⟩ := processFilesLoop_spec env files st hall hbuf
    refine ⟨rs, ?_⟩
    unfold processMultipleFiles
    simp only [h, if_true]
    rw [validateMultipleFiles_validFiles_all files hlen hall, hloop]
  · rw [Bool.eq_false_iff, Ne, validateMultipleFiles_success_iff]
    push_neg
    constructor
    · intro h
      by_cases hl : files.length ≤ MAX_FILES
      · obtain ⟨f, hf, hv⟩ := h hl
        exact Or.inr ⟨f, hf, by simpa using hv⟩
      · exact Or.inl (Nat.not_le.mp hl)
    · intro h hl
      rcases h with h | ⟨f, hf, hv⟩
      · exact absurd hl (Nat.not_le.mpr h)
      · exact ⟨f, hf, by simp [hv]⟩
  · intro f₀ rest e hfs hsucc hb
    subst hfs
    obtain ⟨hlen, hall⟩ := (validateMultipleFiles_success_iff _).mp hsucc
    unfold processMultipleFiles
    simp only [hsucc, if_true]
    rw [validateMultipleFiles_validFiles_all _ hlen hall]
    unfold processFilesLoop
    rw [extractTextFromFile_of_buffail env f₀ st e
      (hall f₀ (List.mem_cons_self f₀ rest)) hb]

/-- C1 witness: a batch of two invalid-type files (count within the maximum)
makes batch validation fail, so the processor raises with the joined per-file
messages. -/
theorem processMultipleFiles_raises_iff_validation_fails_w :
    (processMultipleFiles envTxt [zipFile, zipFile] ⟨none⟩).1 = .error
      ("File validation failed: " ++ String.intercalate ", "
        (validateMultipleFiles [zipFile, zipFile]).errors) :=
  (processMultipleFiles_raises_iff_validation_fails envTxt [zipFile, zipFile] ⟨none⟩).1
    (by decide)

/-! ### Claim C2 — when processFile throws -/

/-- C2 counterexample: for a file that fails validation (unsupported declared
type), `extractTextFromFile` throws the validation message rather than
returning the failure-shaped result, so it is not exception-free for every
input file. -/
theorem extractTextFromFile_throws_on_invalid_cex :
    (extractTextFromFile envTxt zipFile ⟨none⟩).1 =
      .error "Unsupported file type: application/zip. Supported types: PDF, TXT, DOCX, DOC, PNG, JPG" := rfl

/-- C2 (amended): `extractTextFromFile` throws exactly in the two cases that
precede its `try` block — a file failing validation throws the validation
message, and a valid file whose `file.arrayBuffer()` read rejects re-throws
that rejection; for a valid file whose buffer read succeeds, every error of
the extraction switch is caught and returned as a result object. -/
theorem extractTextFromFile_total_iff_valid (env : Env) (f : JSFile) (st : PdfJsState) :
    ((validateFile f).success = true → env.arrayBuffer f = .ok () →
      ∃ r, (extractTextFromFile env f st).1 = .ok r)
    ∧ ((validateFile f).success = false →
      (extractTextFromFile env f st).1 = .error (validateFile f).message)
    ∧ ((validateFile f).success = true → ∀ e, env.arrayBuffer f = .error e →
      (extractTextFromFile env f st).1 = .error e) := by
  refine ⟨?_, ?_, ?_⟩
  · intro h hb
    exact ⟨_, by rw [extractTextFromFile_of_valid env f st h hb]⟩
  · intro h
    rw [extractTextFromFile_of_invalid env f st h]
  · intro h e hb
    rw [extractTextFromFile_of_buffail env f st e h hb]

/-- C2 witness: a valid plain-text file yields a returned result object. -/
theorem extractTextFromFile_total_iff_valid_w :
    ∃ r, (extractTextFromFile envTxt txtFile ⟨none⟩).1 = .ok r :=
  (extractTextFromFile_total_iff_valid envTxt txtFile ⟨none⟩).1 rfl rfl

/-! ### Claim C3 — the success text invariant -/

/-- C3 counterexample: a plain-text file whose content " hi " has surrounding
whitespace round-trips to the raw content " hi ", which differs from its own
trim — so the success text is neither trimmed nor equal to S.trim(). -/
theorem plain_text_not_trimmed_cex :
    (extractTextFromFile envTxt txtFile ⟨none⟩).1 =
      .ok (.success " hi " "Direct text reading" "a.txt" 4 "text/plain")
    ∧ jsTrim " hi " ≠ " hi " := by
  exact ⟨rfl, by decide⟩

/-- C3 (amended): a success result's text always has a non-empty trim (an
extraction yielding empty or all-whitespace text is instead reported as the
"No text content found in the file" failure), and on every path except direct
text reading the text equals its own trim; the plain-text path returns the
file's raw content S unchanged — so text = S, not S.trim() — whenever S has
a non-empty trim. -/
theorem success_text_spec (env : Env) (f : JSFile) (st : PdfJsState)
    (t m n : String) (sz : Nat) (ty : String)
    (h : (extractTextFromFile env f st).1 = .ok (.success t m n sz ty)) :
    t ≠ "" ∧ (jsTrim t).length ≠ 0 ∧
      (f.type ≠ "text/plain" → jsTrim t = t) ∧
      (f.type = "text/plain" → env.readAsText f = some t ∧ m = "Direct text reading") := by
  by_cases hv : (validateFile f).success = true
  · have hb : env.arrayBuffer f = .ok () := by
      cases hb₂ : env.arrayBuffer f with
      | error e =>
        rw [extractTextFromFile_of_buffail env f st e hv hb₂] at h
        exact absurd h (by simp)
      | ok u =>
        cases u
        rfl
    rw [extractTextFromFile_of_valid env f st hv hb] at h
    have hfin := Except.ok.inj h
    cases hr : (innerExtract env f st).1 with
    | error e =>
      rw [hr] at hfin
      exact absurd hfin (by simp [finishResult])
    | ok tm =>
      obtain ⟨t₁, m₁⟩ := tm
      rw [hr] at hfin
      have hfin₂ : (if t₁ = "" ∨ (jsTrim t₁).length = 0 then
          ExtractionResult.failure "No text content found in the file" f.name f.size f.type
        else ExtractionResult.success t₁ m₁ f.name f.size f.type) =
          ExtractionResult.success t m n sz ty := hfin
      by_cases hc : t₁ = "" ∨ (jsTrim t₁).length = 0
      · rw [if_pos hc] at hfin₂
        exact absurd hfin₂ (by simp)
      · rw [if_neg hc] at hfin₂
        push_neg at hc
        injection hfin₂ with ht₁ hm₁ hn₁ hsz₁ hty₁
        subst ht₁
        subst hm₁
        have hshape := innerExtract_ok_shape env f st t₁ m₁ hr
        exact ⟨hc.1, hc.2, hshape.2, hshape.1⟩
  · rw [extractTextFromFile_of_invalid env f st (by simpa using hv)] at h
    exact absurd h (by simp)

/-- C3 witness: at the concrete plain-text success " hi " the invariant holds
in its amended form — the raw reader content is returned unchanged. -/
theorem success_text_spec_w :
    (" hi " : String) ≠ "" ∧ (jsTrim " hi ").length ≠ 0 ∧
      (txtFile.type ≠ "text/plain" → jsTrim " hi " = " hi ") ∧
      (txtFile.type = "text/plain" →
        envTxt.readAsText txtFile = some " hi " ∧
          "Direct text reading" = "Direct text reading") :=
  success_text_spec envTxt txtFile ⟨none⟩ " hi " "Direct text reading"
    "a.txt" 4 "text/plain" rfl

/-! ### Claim C4 — the OCR fallback decision for PDFs -/

/-- C4: for a valid PDF that reaches extraction (its pre-`try` buffer read
succeeded) and whose direct text-layer extraction returns text t, the OCR
fallback is taken exactly when t has fewer than 50 characters:
with 50 or more characters the result keeps t, is tagged
"PDF text extraction", and is unchanged under any replacement of the OCR
backends (OCR is not invoked); with fewer than 50 the result comes from
`processScannedPDF` and a successful non-empty OCR is tagged
"OCR (scanned PDF)" while an OCR error becomes the failure-shaped result. -/
theorem pdf_ocr_fallback_iff_short_text (env : Env) (f : JSFile) (st st' : PdfJsState)
    (t : String) (hty : f.type = "application/pdf") (hsz : f.size ≤ MAX_FILE_SIZE)
    (hbuf : env.arrayBuffer f = .ok ())
    (hext : extractTextFromPDF env f st = (.ok t, st')) :
    (50 ≤ t.length →
      extractTextFromFile env f st =
        (.ok (.success t "PDF text extraction" f.name f.size f.type), st'))
    ∧ (50 ≤ t.length → ∀ env₂ : Env, env₂.pdfjsInit = env.pdfjsInit →
        env₂.getDocument = env.getDocument → env₂.arrayBuffer = env.arrayBuffer →
        extractTextFromFile env₂ f st = extractTextFromFile env f st)
    ∧ (t.length < 50 →
      ∀ u st₂, processScannedPDF env f st' = (.ok u, st₂) → u ≠ "" →
        extractTextFromFile env f st =
          (.ok (.success u "OCR (scanned PDF)" f.name f.size f.type), st₂))
    ∧ (t.length < 50 →
      ∀ e st₂, processScannedPDF env f st' = (.error e, st₂) →
        extractTextFromFile env f st = (.ok (.failure e f.name f.size f.type), st₂)) := by
  have hv : (validateFile f).success = true :=
    (validateFile_success_iff f).mpr ⟨hsz, by rw [hty]; decide⟩
  refine ⟨?_, ?_, ?_, ?_⟩
  · intro hlen
    exact extractTextFromFile_pdf_long env f st st' t hty hsz hbuf hext hlen
  · intro hlen env₂ hpi hgd hab
    have hext₂ : extractTextFromPDF env₂ f st = (.ok t, st') := by
      rw [extractTextFromPDF_congr env env₂ f st hpi hgd, hext]
    have hbuf₂ : env₂.arrayBuffer f = .ok () := by rw [hab, hbuf]
    rw [extractTextFromFile_pdf_long env₂ f st st' t hty hsz hbuf₂ hext₂ hlen,
      extractTextFromFile_pdf_long env f st st' t hty hsz hbuf hext hlen]
  · intro hlen u st₂ hS hune
    have hie := innerExtract_pdf env f st hty
    rw [hext] at hie
    simp only at hie
    rw [if_pos hlen, hS] at hie
    simp only at hie
    rw [extractTextFromFile_of_valid env f st hv hbuf, hie]
    have htr : jsTrim u = u := processScannedPDF_ok_trim env f st' st₂ u hS
    rw [finishResult_success f u "OCR (scanned PDF)" htr hune]
  · intro hlen e st₂ hS
    have hie := innerExtract_pdf env f st hty
    rw [hext] at hie
    simp only at hie
    rw [if_pos hlen, hS] at hie
    simp only at hie
    rw [extractTextFromFile_of_valid env f st hv hbuf, hie]
    rfl

/-- C4 witness: a one-page PDF with a 61-character text layer keeps the
direct extraction and is tagged with the direct-extraction method. -/
theorem pdf_ocr_fallback_iff_short_text_w :
    extractTextFromFile envPdfLong pdfFile ⟨none⟩ =
      (.ok (.success "0123456789012345678901234567890123456789012345678901234567890"
        "PDF text extraction" "r.pdf" 500 "application/pdf"), ⟨some (.ok .mk)⟩) :=
  (pdf_ocr_fallback_iff_short_text envPdfLong pdfFile ⟨none⟩ ⟨some (.ok .mk)⟩
    "0123456789012345678901234567890123456789012345678901234567890"
    rfl (by decide) rfl rfl).1 (by decide)

/-! ### Claim C7 — batch results count and order -/

/-- C7 counterexample: a batch of one file that passes validation still
aborts with an uncaught throw — zero results — when that file's pre-`try`
`file.arrayBuffer()` read rejects, so N accepted files need not yield N
results regardless of which individual files fail. -/
theorem batch_aborts_on_buffer_read_cex :
    (validateMultipleFiles [txtFile]).success = true ∧
      (processMultipleFiles envBufFail [txtFile] ⟨none⟩).1 =
        .error "NotReadableError" := by
  exact ⟨rfl, rfl⟩

/-- C7 (amended): a batch the validator accepts — count within the maximum,
every file valid — in which every file's pre-`try` buffer read succeeds is
processed to exactly one result per file, in input order, with the i-th
result carrying the i-th file's name, size and type, regardless of which
individual extractions fail; a rejected buffer read instead aborts the whole
batch. -/
theorem processMultipleFiles_preserves_order (env : Env) (files : List JSFile)
    (st : PdfJsState) (hlen : files.length ≤ MAX_FILES)
    (hall : ∀ f ∈ files, (validateFile f).success = true)
    (hbuf : ∀ f ∈ files, env.arrayBuffer f = .ok ()) :
    ∃ rs st', processMultipleFiles env files st = (.ok rs, st') ∧
      rs.length = files.length ∧
      rs.map ExtractionResult.fileName = files.map JSFile.name ∧
      rs.map ExtractionResult.fileSize = files.map JSFile.size ∧
      rs.map ExtractionResult.fileTypeOf = files.map JSFile.type := by
  have hsucc := (validateMultipleFiles_success_iff files).mpr ⟨hlen, hall⟩
  obtain ⟨rs, st', hloop, hn, hs, ht⟩ := processFilesLoop_spec env files st hall hbuf
  refine ⟨rs, st', ?_, ?_, hn, hs, ht⟩
  · unfold processMultipleFiles
    simp only [hsucc, if_true]
    rw [validateMultipleFiles_validFiles_all files hlen hall, hloop]
  · have hlenm := congrArg List.length hn
    simpa using hlenm

/-- C7 witness: a two-file batch — a valid text file and a valid image file
whose OCR fails — yields exactly two results in order with matching
metadata. -/
theorem processMultipleFiles_preserves_order_w :
    ∃ rs st', processMultipleFiles envTxt [txtFile, ⟨"scan.png", 9, "image/png"⟩] ⟨none⟩ =
        (.ok rs, st') ∧
      rs.length = [txtFile, ⟨"scan.png", 9, "image/png"⟩].length ∧
      rs.map ExtractionResult.fileName =
        [txtFile, ⟨"scan.png", 9, "image/png"⟩].map JSFile.name ∧
      rs.map ExtractionResult.fileSize =
        [txtFile, ⟨"scan.png", 9, "image/png"⟩].map JSFile.size ∧
      rs.map ExtractionResult.fileTypeOf =
        [txtFile, ⟨"scan.png", 9, "image/png"⟩].map JSFile.type :=
  processMultipleFiles_preserves_order envTxt [txtFile, ⟨"scan.png", 9, "image/png"⟩]
    ⟨none⟩ (by decide) (by decide) (by decide)

end ResumeAnalyzer
